import Mathlib

/-!
Verification of the data-writer app (src/app.py) against its specification.

The embedding models the module level functions and the server's shared
state.  Sizes are measured in bytes throughout: the source keeps
`current_size_gb` as `bytes / 1024^3` and targets in GB, and compares them
with `<`; since `x / 1024^3 < y / 1024^3 ↔ x < y` under exact arithmetic,
the loop condition is embedded directly on byte counts.  Chunk sizes are in
MB as in the source (`chunk_mb`), scaled by `1024 * 1024` where the source
scales.
-/

namespace DataWriter

/-- Bytes per megabyte, the source's `1024 * 1024`. -/
def MB : Nat := 1024 * 1024

/-- The alphabet of `generate_random_data`: Python's
`string.ascii_letters + string.digits` (lowercase, uppercase, digits). -/
def chars : List Char :=
  ("abcdefghijklmnopqrstuvwxyz" ++ "ABCDEFGHIJKLMNOPQRSTUVWXYZ" ++ "0123456789").toList

/-- `generate_random_data(size_bytes)` from src/app.py: joins `size_bytes`
characters, each obtained by `random.choice(chars)`.  The random source is
modelled as an oracle `choice` giving the index chosen at each position. -/
def generate_random_data (choice : Nat → Fin chars.length) (size_bytes : Nat) : List Char :=
  (List.range size_bytes).map fun i => chars.get (choice i)

/-- Observable events of `write_chunk`: file creation/truncation
(`open(path, 'w')`), a sub-write of `n` bytes (`f.write(...)`), a
`f.flush()`, and an invocation of the progress callback. -/
inductive WEvent where
  | create : WEvent
  | write : Nat → WEvent
  | flush : WEvent
  | callback : WEvent
deriving DecidableEq, Repr

/-- The `while remaining > 0` loop of `write_chunk`.  Each iteration writes
`min sub_chunk_size remaining` bytes, flushes, and invokes the progress
callback.  `fuel` bounds the iteration count; `write_chunk` passes
`remaining` itself, which suffices because every iteration with a positive
sub-chunk size writes at least one byte.  (The fuel-exhausted branch is
unreachable from `write_chunk`.) -/
def writeChunkLoop (sub : Nat) : Nat → Nat → List WEvent
  | _, 0 => []
  | 0, _ + 1 => []
  | fuel + 1, r + 1 =>
    let write_size := min sub (r + 1)
    WEvent.write write_size :: WEvent.flush :: WEvent.callback ::
      writeChunkLoop sub fuel (r + 1 - write_size)

/-- `write_chunk(path, size_mb, progress_callback)` from src/app.py, as the
trace of its filesystem/callback events: it opens (creates/truncates) the
file, then writes `size_mb * 1024 * 1024` bytes in sub-chunks of
`min (10 * 1024 * 1024) chunk_size` bytes, flushing and invoking the
callback after each sub-write. -/
def write_chunk (size_mb : Nat) : List WEvent :=
  let chunk_size := size_mb * MB
  let sub_chunk_size := min (10 * MB) chunk_size
  WEvent.create :: writeChunkLoop sub_chunk_size chunk_size chunk_size

/-- Total bytes recorded by the write events of a trace. -/
def sumWrites : List WEvent → Nat
  | [] => 0
  | WEvent.write n :: tr => n + sumWrites tr
  | _ :: tr => sumWrites tr

/-- Number of write events of a trace. -/
def countWrites : List WEvent → Nat
  | [] => 0
  | WEvent.write _ :: tr => 1 + countWrites tr
  | _ :: tr => countWrites tr

/-- A trace consisting of repeated groups: one sub-write, then a flush,
then a callback invocation, before the next sub-write. -/
inductive SubWriteSeq : List WEvent → Prop where
  | nil : SubWriteSeq []
  | step (n : Nat) (tr : List WEvent) : SubWriteSeq tr →
      SubWriteSeq (WEvent.write n :: WEvent.flush :: WEvent.callback :: tr)

theorem writeChunkLoop_sum (sub : Nat) (hsub : 0 < sub) :
    ∀ fuel r, r ≤ fuel → sumWrites (writeChunkLoop sub fuel r) = r := by
  intro fuel
  induction fuel with
  | zero =>
    intro r hr
    interval_cases r
    rfl
  | succ f ih =>
    intro r hr
    match r with
    | 0 => rfl
    | s + 1 =>
      have hw1 : 0 < min sub (s + 1) := lt_min hsub (Nat.succ_pos s)
      have hw2 : min sub (s + 1) ≤ s + 1 := Nat.min_le_right _ _
      have hrec : s + 1 - min sub (s + 1) ≤ f := by omega
      simp only [writeChunkLoop, sumWrites]
      rw [ih _ hrec]
      omega

theorem writeChunkLoop_shape (sub : Nat) :
    ∀ fuel r, SubWriteSeq (writeChunkLoop sub fuel r) := by
  intro fuel
  induction fuel with
  | zero =>
    intro r
    match r with
    | 0 => exact SubWriteSeq.nil
    | _ + 1 => exact SubWriteSeq.nil
  | succ f ih =>
    intro r
    match r with
    | 0 => exact SubWriteSeq.nil
    | s + 1 => exact SubWriteSeq.step _ _ (ih _)

theorem writeChunkLoop_bound (sub : Nat) :
    ∀ fuel r n, WEvent.write n ∈ writeChunkLoop sub fuel r → n ≤ sub := by
  intro fuel
  induction fuel with
  | zero =>
    intro r n h
    match r with
    | 0 => simp [writeChunkLoop] at h
    | _ + 1 => simp [writeChunkLoop] at h
  | succ f ih =>
    intro r n h
    match r with
    | 0 => simp [writeChunkLoop] at h
    | s + 1 =>
      simp only [writeChunkLoop, List.mem_cons] at h
      rcases h with h | h | h | h
      · cases h
        exact Nat.min_le_left _ _
      · cases h
      · cases h
      · exact ih _ _ h

mutual
/-- An entry of the target directory: a regular file (with its byte size and
an oracle `deletable` telling whether `os.unlink` would succeed on it, the
outcome the source's per-file `try/except` reacts to), or a subdirectory
with its own entries. -/
inductive Entry where
  | file (name : String) (size : Nat) (deletable : Bool)
  | dir (name : String) (entries : EntryList)
deriving DecidableEq
/-- A list of directory entries (a mutual inductive rather than
`List Entry`, so that recursion over the tree stays structural). -/
inductive EntryList where
  | nil : EntryList
  | cons (e : Entry) (es : EntryList) : EntryList
deriving DecidableEq
end

def EntryList.append : EntryList → EntryList → EntryList
  | EntryList.nil, l => l
  | EntryList.cons e es, l => EntryList.cons e (es.append l)

instance : Append EntryList := ⟨EntryList.append⟩

/-- Membership of an entry in a directory listing (top level only). -/
def entryMem (x : Entry) : EntryList → Prop
  | EntryList.nil => False
  | EntryList.cons e es => x = e ∨ entryMem x es

def decEntryMem (x : Entry) : (l : EntryList) → Decidable (entryMem x l)
  | EntryList.nil => isFalse id
  | EntryList.cons e es =>
    have : Decidable (entryMem x es) := decEntryMem x es
    inferInstanceAs (Decidable (x = e ∨ entryMem x es))

instance (x : Entry) (l : EntryList) : Decidable (entryMem x l) := decEntryMem x l

mutual
/-- Size contribution of one entry to `get_dir_size_gb`'s walk:
`os.path.getsize` for a regular file, and the recursive total for a
subdirectory (`os.walk` descends into it). -/
def entrySize : Entry → Nat
  | Entry.file _ sz _ => sz
  | Entry.dir _ es => dirSizeBytes es
/-- `get_dir_size_gb(directory)` from src/app.py, in bytes: `os.walk` sums
`os.path.getsize` over every regular file at every depth.  (The source
divides the byte total by `1024**3` to report GB; the embedding keeps the
exact byte count.  The `os.path.exists` race guard is not modelled: every
listed file exists.) -/
def dirSizeBytes : EntryList → Nat
  | EntryList.nil => 0
  | EntryList.cons e es => entrySize e + dirSizeBytes es
end

/-- Whether a top-level entry survives the deletion pass of `clear_data`:
subdirectories are skipped by the `os.path.isfile` test, files are
unlinked unless the unlink raises (then the error is printed and the file
is skipped). -/
def surviveClear : Entry → Bool
  | Entry.file _ _ deletable => !deletable
  | Entry.dir _ _ => true

/-- The deletion pass of the `clear_data` effect (src/app.py lines
164-171): iterate over `os.listdir(data_dir)` and unlink each entry that
passes `os.path.isfile`, catching and logging per-file failures. -/
def clearFiles : EntryList → EntryList
  | EntryList.nil => EntryList.nil
  | EntryList.cons e es =>
    if surviveClear e then EntryList.cons e (clearFiles es) else clearFiles es

/-- The server's shared mutable state: `writing_flag` (the
`threading.Event`), the `current_size_gb[0]` cell (kept in bytes here),
`files_created[0]`, the captured `target_gb[0]` (bytes) and `chunk_mb[0]`,
and the contents of `data_dir`. -/
structure Srv where
  writing_flag : Bool
  current_size : Nat
  files_created : Nat
  target_size : Nat
  chunk_mb : Nat
  data_dir : EntryList

/-- What the `status` text renders: current size, files created, and
whether writing is in progress. -/
structure ProgressSnapshot where
  size : Nat
  files : Nat
  writing : Bool
deriving DecidableEq

/-- The `status` render (src/app.py lines 178-191): reports the
`current_size` and `file_counter` reactive mirrors of the shared cells and
the writing flag.  The reactive propagation (`update_reactive_values`) is
modelled as already flushed, so the render reads the cells directly. -/
def status (s : Srv) : ProgressSnapshot :=
  ⟨s.current_size, s.files_created, s.writing_flag⟩

/-- The `start_write` effect (src/app.py lines 90-140), up to and
including spawning the write thread: a no-op if `writing_flag` is set;
otherwise it captures the inputs, re-derives `current_size` from the
directory, sets the flag, and spawns the write loop.  The returned Bool
records whether a new write thread was spawned. -/
def start_write (s : Srv) (target chunk : Nat) : Srv × Bool :=
  if s.writing_flag then (s, false)
  else
    ({ s with target_size := target, chunk_mb := chunk,
              current_size := dirSizeBytes s.data_dir,
              writing_flag := true }, true)

/-- The `clear_data` effect (src/app.py lines 153-176): clear the flag
(forcing stop), wait briefly for the thread (timing not modelled), delete
every top-level regular file skipping per-file failures, then reset both
counters to zero unconditionally. -/
def clear_data (s : Srv) : Srv :=
  { s with writing_flag := false,
           data_dir := clearFiles s.data_dir,
           files_created := 0,
           current_size := 0 }

/-- The filenames of the top-level regular files of a directory listing,
in listing order (what the `file_list` render collects via `os.listdir`
filtered by `os.path.isfile`). -/
def fileNames : EntryList → List String
  | EntryList.nil => []
  | EntryList.cons (Entry.file n _ _) es => n :: fileNames es
  | EntryList.cons (Entry.dir _ _) es => fileNames es

/-- Lexicographic order on character lists by code point — Python's `<`
on strings, the order pandas sorts the Filename column by. -/
def charListLt : List Char → List Char → Bool
  | [], [] => false
  | [], _ :: _ => true
  | _ :: _, [] => false
  | a :: as, b :: bs => if a < b then true else if b < a then false else charListLt as bs

/-- Lexicographic order on strings by code point. -/
def strLt (a b : String) : Bool := charListLt a.data b.data

/-- Insert a name into a list kept in descending lexicographic order. -/
def insertDesc (x : String) : List String → List String
  | [] => [x]
  | y :: ys => if strLt y x then x :: y :: ys else y :: insertDesc x ys

/-- Sort names in descending lexicographic order (the effect of pandas
`sort_values("Filename", ascending=False)`; keys here are distinct, so
stability is irrelevant). -/
def sortDesc : List String → List String
  | [] => []
  | x :: xs => insertDesc x (sortDesc xs)

/-- The `file_list` render (src/app.py lines 226-250), reduced to the
filename column: list the top-level regular files, sort by filename
descending, and keep the first 10 rows (`df.head(10)`). -/
def file_list (dirents : EntryList) : List String :=
  (sortDesc (fileNames dirents)).take 10

theorem dirSizeBytes_append : ∀ a b : EntryList,
    dirSizeBytes (a ++ b) = dirSizeBytes a + dirSizeBytes b
  | EntryList.nil, b => by
    show dirSizeBytes b = dirSizeBytes EntryList.nil + dirSizeBytes b
    simp [dirSizeBytes]
  | EntryList.cons e es, b => by
    show dirSizeBytes (EntryList.cons e (es ++ b)) = _
    simp only [dirSizeBytes]
    rw [dirSizeBytes_append es b]
    ring

theorem entryList_append_assoc : ∀ a b c : EntryList,
    a ++ b ++ c = a ++ (b ++ c)
  | EntryList.nil, _, _ => rfl
  | EntryList.cons e es, b, c => by
    show EntryList.cons e (es ++ b ++ c) = EntryList.cons e (es ++ (b ++ c))
    rw [entryList_append_assoc es b c]

theorem entryMem_clearFiles (x : Entry) : ∀ l : EntryList,
    entryMem x (clearFiles l) ↔ entryMem x l ∧ surviveClear x = true
  | EntryList.nil => by simp [clearFiles, entryMem]
  | EntryList.cons e es => by
    have ih := entryMem_clearFiles x es
    by_cases h : surviveClear e = true
    · simp only [clearFiles, h, if_true, entryMem, ih]
      constructor
      · rintro (rfl | ⟨hm, hs⟩)
        · exact ⟨Or.inl rfl, h⟩
        · exact ⟨Or.inr hm, hs⟩
      · rintro ⟨rfl | hm, hs⟩
        · exact Or.inl rfl
        · exact Or.inr ⟨hm, hs⟩
    · simp only [clearFiles]
      rw [if_neg h, ih]
      simp only [entryMem]
      constructor
      · rintro ⟨hm, hs⟩
        exact ⟨Or.inr hm, hs⟩
      · rintro ⟨rfl | hm, hs⟩
        · rw [hs] at h
          exact absurd rfl h
        · exact ⟨hm, hs⟩

/-- The write-loop slice of the shared state touched by `write_task`:
`current_size_gb[0]` (bytes), `files_created[0]`, the directory contents,
the total number of sub-chunk writes completed so far (the timeline on
which an external Stop becomes visible), and whether the loop broke out on
an exception. -/
structure RunSt where
  current_size : Nat
  files_created : Nat
  data_dir : EntryList
  subs_written : Nat
  errored : Bool
deriving DecidableEq

/-- The value `writing_flag.is_set()` returns at a moment when
`subs` sub-chunk writes have completed.  `stopAt = some n` models an
external `stop_write` (or `clear_data`) clearing the flag right after the
n-th sub-chunk write completes; `none` models no stop request.  The flag
is read only where the source reads it: at the top of `write_task`'s
`while` loop. -/
def flagAt (stopAt : Option Nat) (subs : Nat) : Bool :=
  match stopAt with
  | none => true
  | some n => decide (subs < n)

/-- The file name `write_task` allocates for its k-th file:
`f"data_chunk_{files_created[0]}.dat"`. -/
def chunkFileName (k : Nat) : String :=
  "data_chunk_" ++ toString k ++ ".dat"

/-- How many sub-chunk writes one successful `write_chunk(path, chunk_mb)`
performs. -/
def subWritesPerChunk (chunk_mb : Nat) : Nat :=
  countWrites (write_chunk chunk_mb)

/-- Bytes present in the chunk file after its first `fsub` sub-writes
completed: each sub-write adds `min (10 MB) chunk` bytes, capped by the
chunk total.  Used to describe the file left behind when the `fsub + 1`-st
sub-write (or its flush) raises. -/
def bytesBeforeFail (chunk_mb : Nat) (fsub : Nat) : Nat :=
  min (fsub * min (10 * MB) (chunk_mb * MB)) (chunk_mb * MB)

/-- Effect of one successful loop iteration of `write_task`: the new file
holds a full chunk, and `update_progress` / line 124 re-derive
`current_size_gb[0]` from `get_dir_size_gb(data_dir)`. -/
def successStep (chunk_mb : Nat) (st : RunSt) (k : Nat) : RunSt :=
  let dir' := st.data_dir ++ EntryList.cons (Entry.file (chunkFileName k) (chunk_mb * MB) true) EntryList.nil
  { current_size := dirSizeBytes dir',
    files_created := k,
    data_dir := dir',
    subs_written := st.subs_written + subWritesPerChunk chunk_mb,
    errored := st.errored }

/-- The `while` loop of `write_task` (src/app.py lines 109-132) followed by
`writing_flag.clear()`.  Each iteration first evaluates
`writing_flag.is_set() and current_size_gb[0] < target_gb[0]`; if true it
increments `files_created[0]`, names the file, and calls `write_chunk`.
`failAt = some (fc, fsub)` models an `IOError` raised while writing chunk
number `fc`, after `fsub` of its sub-writes completed: the partially
written file stays in the directory, `current_size_gb[0]` keeps the value
the last progress callback derived (the pre-chunk value when `fsub = 0`),
and the `except` branch prints the error and breaks out of the loop.
`failAt = none` models error-free I/O.  `fuel` bounds the number of
iterations: the result is `none` when the loop has not exited within
`fuel` iterations, and `some` of the final state when it has (at which
point the source clears the flag and the run is over, the thread state
returning to idle). -/
def writeTaskLoop (target chunk_mb : Nat) (stopAt : Option Nat)
    (failAt : Option (Nat × Nat)) : Nat → RunSt → Option RunSt
  | 0, _ => none
  | fuel + 1, st =>
    if flagAt stopAt st.subs_written && decide (st.current_size < target) then
      let k := st.files_created + 1
      match failAt with
      | some (fc, fsub) =>
        if fc = k then
          let dir' := st.data_dir ++
            EntryList.cons (Entry.file (chunkFileName k) (bytesBeforeFail chunk_mb fsub) true)
              EntryList.nil
          some { current_size := if fsub = 0 then st.current_size else dirSizeBytes dir',
                 files_created := k,
                 data_dir := dir',
                 subs_written := st.subs_written + fsub,
                 errored := true }
        else writeTaskLoop target chunk_mb stopAt failAt fuel (successStep chunk_mb st k)
      | none => writeTaskLoop target chunk_mb stopAt failAt fuel (successStep chunk_mb st k)
    else some st

/-- Helper: the success iteration preserves the invariant that the size
cell holds the derived directory size, and adds exactly one chunk. -/
theorem successStep_size (chunk_mb : Nat) (st : RunSt) (k : Nat)
    (hinv : st.current_size = dirSizeBytes st.data_dir) :
    (successStep chunk_mb st k).current_size = st.current_size + chunk_mb * MB := by
  simp only [successStep, dirSizeBytes_append, dirSizeBytes, entrySize, hinv]
  omega

/-- C4: for every requested chunk size, `write_chunk` first
creates/truncates the file, then writes exactly `size_mb * 2^20` bytes
split into sub-writes of at most the sub-chunk bound
`min (10 * 2^20) (size_mb * 2^20)` bytes each, and after each sub-write it
flushes the file handle and then invokes the zero-argument progress
callback, before the next sub-write begins. -/
theorem c4_write_chunk_contract (size_mb : Nat) :
    ∃ tr, write_chunk size_mb = WEvent.create :: tr
      ∧ SubWriteSeq tr
      ∧ sumWrites tr = size_mb * MB
      ∧ ∀ n, WEvent.write n ∈ tr → n ≤ min (10 * MB) (size_mb * MB) := by
  refine ⟨writeChunkLoop (min (10 * MB) (size_mb * MB)) (size_mb * MB) (size_mb * MB),
    rfl, writeChunkLoop_shape _ _ _, ?_, fun n hn => writeChunkLoop_bound _ _ _ _ hn⟩
  rcases Nat.eq_zero_or_pos size_mb with h | h
  · subst h
    decide
  · have hsub : 0 < min (10 * MB) (size_mb * MB) := by
      apply lt_min
      · decide
      · have : 0 < MB := by decide
        positivity
    exact writeChunkLoop_sum _ hsub _ _ le_rfl

/-- Witness for C4 at `size_mb = 25`: the trace after the create event
totals 25 MB, and its last sub-write (of 5 MB) respects the sub-chunk
bound. -/
theorem c4_witness :
    sumWrites (List.tail (write_chunk 25)) = 25 * MB
    ∧ 5 * MB ≤ min (10 * MB) (25 * MB) := by
  obtain ⟨tr, h1, _, h3, h4⟩ := c4_write_chunk_contract 25
  constructor
  · rw [h1]
    exact h3
  · apply h4
    rw [show tr = List.tail (write_chunk 25) by rw [h1]; rfl]
    decide

/-- C9: `generate_random_data` is a pure total function of its random
choices; for every requested size it returns exactly that many characters,
each drawn from `string.ascii_letters + string.digits`. -/
theorem c9_generate_contract (choice : Nat → Fin chars.length) (n : Nat) :
    (generate_random_data choice n).length = n
    ∧ ∀ c, c ∈ generate_random_data choice n → c ∈ chars := by
  constructor
  · simp [generate_random_data]
  · intro c hc
    simp only [generate_random_data, List.mem_map] at hc
    obtain ⟨i, _, rfl⟩ := hc
    exact List.get_mem _ _ _

/-- A concrete random-choice oracle: always pick index 0. -/
def constChoice : Nat → Fin chars.length := fun _ => ⟨0, by decide⟩

/-- Witness for C9 at `n = 5` with the constant oracle, discharging the
membership hypothesis on the first generated character. -/
theorem c9_witness :
    (generate_random_data constChoice 5).length = 5
    ∧ 'a' ∈ chars := by
  refine ⟨(c9_generate_contract constChoice 5).1, ?_⟩
  apply (c9_generate_contract constChoice 5).2
  decide

/-- The C7 scenario: the target directory contains exactly the 15 files
`data_chunk_1.dat` through `data_chunk_15.dat` (listed in creation
order; the sort makes the result independent of listing order). -/
def fifteenChunkFiles : EntryList :=
  EntryList.cons (Entry.file "data_chunk_1.dat" 1 true)
  (EntryList.cons (Entry.file "data_chunk_2.dat" 1 true)
  (EntryList.cons (Entry.file "data_chunk_3.dat" 1 true)
  (EntryList.cons (Entry.file "data_chunk_4.dat" 1 true)
  (EntryList.cons (Entry.file "data_chunk_5.dat" 1 true)
  (EntryList.cons (Entry.file "data_chunk_6.dat" 1 true)
  (EntryList.cons (Entry.file "data_chunk_7.dat" 1 true)
  (EntryList.cons (Entry.file "data_chunk_8.dat" 1 true)
  (EntryList.cons (Entry.file "data_chunk_9.dat" 1 true)
  (EntryList.cons (Entry.file "data_chunk_10.dat" 1 true)
  (EntryList.cons (Entry.file "data_chunk_11.dat" 1 true)
  (EntryList.cons (Entry.file "data_chunk_12.dat" 1 true)
  (EntryList.cons (Entry.file "data_chunk_13.dat" 1 true)
  (EntryList.cons (Entry.file "data_chunk_14.dat" 1 true)
  (EntryList.cons (Entry.file "data_chunk_15.dat" 1 true)
   EntryList.nil))))))))))))))

/-- C7 (counterexample): on the 15 files `data_chunk_1..15.dat`, the file
list does not return files 9 through 15: it returns 10 rows (not 7),
contains `data_chunk_2.dat`, and omits `data_chunk_10.dat`, because the
descending sort key is the full filename string and unpadded integer
suffixes are not lexicographically monotonic with creation order. -/
theorem c7_counterexample :
    (file_list fifteenChunkFiles).length = 10
    ∧ "data_chunk_2.dat" ∈ file_list fifteenChunkFiles
    ∧ "data_chunk_10.dat" ∉ file_list fifteenChunkFiles := by decide

/-- C7 (amended): on the 15 files `data_chunk_1..15.dat`, the file list
returns the 10 lexicographically greatest filenames in descending order:
9, 8, 7, 6, 5, 4, 3, 2, 15, 14. -/
theorem c7_file_list_result :
    file_list fifteenChunkFiles =
      ["data_chunk_9.dat", "data_chunk_8.dat", "data_chunk_7.dat", "data_chunk_6.dat",
       "data_chunk_5.dat", "data_chunk_4.dat", "data_chunk_3.dat", "data_chunk_2.dat",
       "data_chunk_15.dat", "data_chunk_14.dat"] := by decide

/-- C10: the deletion pass of clear removes only top-level regular files —
it never adds entries, and a subdirectory entry (with its entire contents)
is present after clearing exactly when it was present before — while the
total-size computation does recurse: the size of a listing headed by a
subdirectory includes the recursive size of that subdirectory's
contents. -/
theorem c10_clear_frame :
    (∀ l x, entryMem x (clearFiles l) → entryMem x l)
    ∧ (∀ l name sub, entryMem (Entry.dir name sub) (clearFiles l)
        ↔ entryMem (Entry.dir name sub) l)
    ∧ (∀ name sub rest, dirSizeBytes (EntryList.cons (Entry.dir name sub) rest)
        = dirSizeBytes sub + dirSizeBytes rest) := by
  refine ⟨?_, ?_, ?_⟩
  · intro l x h
    exact ((entryMem_clearFiles x l).1 h).1
  · intro l name sub
    rw [entryMem_clearFiles]
    simp [surviveClear]
  · intro name sub rest
    rfl

/-- A directory with one top-level file and one subdirectory holding a
4-byte file. -/
def nestedDirSample : EntryList :=
  EntryList.cons (Entry.file "data_chunk_1.dat" 3 true)
    (EntryList.cons
      (Entry.dir "sub" (EntryList.cons (Entry.file "inner.dat" 4 true) EntryList.nil))
      EntryList.nil)

/-- Witness for C10: in the sample directory the subdirectory (with its
contents) survives clearing, and the recursive size computation counts the
nested 4-byte file. -/
theorem c10_witness :
    entryMem (Entry.dir "sub" (EntryList.cons (Entry.file "inner.dat" 4 true) EntryList.nil))
      (clearFiles nestedDirSample)
    ∧ dirSizeBytes (EntryList.cons
        (Entry.dir "sub" (EntryList.cons (Entry.file "inner.dat" 4 true) EntryList.nil))
        EntryList.nil) = dirSizeBytes (EntryList.cons (Entry.file "inner.dat" 4 true) EntryList.nil) + 0 := by
  constructor
  · exact (c10_clear_frame.2.1 nestedDirSample "sub"
      (EntryList.cons (Entry.file "inner.dat" 4 true) EntryList.nil)).mpr (by decide)
  · exact c10_clear_frame.2.2 "sub"
      (EntryList.cons (Entry.file "inner.dat" 4 true) EntryList.nil) EntryList.nil

/-- C5: for every prior server state and every outcome of the per-file
deletions (encoded by the `deletable` oracle on each file), after
`clear_data` the observed size and file count are 0 and the flag is
cleared; deletable top-level regular files are gone, files whose deletion
failed are still present (skipped, not fatal), and nothing new appears. -/
theorem c5_clear_resets (s : Srv) :
    (status (clear_data s)).size = 0
    ∧ (status (clear_data s)).files = 0
    ∧ (status (clear_data s)).writing = false
    ∧ (∀ name sz, entryMem (Entry.file name sz true) s.data_dir →
        ¬ entryMem (Entry.file name sz true) (clear_data s).data_dir)
    ∧ (∀ name sz, entryMem (Entry.file name sz false) s.data_dir →
        entryMem (Entry.file name sz false) (clear_data s).data_dir)
    ∧ (∀ e, entryMem e (clear_data s).data_dir → entryMem e s.data_dir) := by
  refine ⟨rfl, rfl, rfl, ?_, ?_, ?_⟩
  · intro name sz _ hc
    have h := ((entryMem_clearFiles _ _).1 hc).2
    simp [surviveClear] at h
  · intro name sz h
    exact (entryMem_clearFiles _ _).2 ⟨h, by simp [surviveClear]⟩
  · intro e h
    exact ((entryMem_clearFiles _ _).1 h).1

/-- A running server whose directory holds one deletable and one
undeletable file. -/
def clearSample : Srv :=
  ⟨true, 12, 2, 100, 1,
    EntryList.cons (Entry.file "data_chunk_1.dat" 5 true)
      (EntryList.cons (Entry.file "data_chunk_2.dat" 7 false) EntryList.nil)⟩

/-- Witness for C5 on a concrete prior state (Running, two files, one
deletion failing): counters read 0, the deletable file is gone, the
undeletable one survives. -/
theorem c5_witness :
    (status (clear_data clearSample)).size = 0
    ∧ ¬ entryMem (Entry.file "data_chunk_1.dat" 5 true) (clear_data clearSample).data_dir
    ∧ entryMem (Entry.file "data_chunk_2.dat" 7 false) (clear_data clearSample).data_dir := by
  refine ⟨(c5_clear_resets clearSample).1, ?_, ?_⟩
  · exact (c5_clear_resets clearSample).2.2.2.1 "data_chunk_1.dat" 5 (by decide)
  · exact (c5_clear_resets clearSample).2.2.2.2.1 "data_chunk_2.dat" 7 (by decide)

/-- C8: calling `start_write` twice in a row (no thread step, stop, or
clear in between) has the same observable effect as calling it once — the
first call leaves the writing flag set, so the second call returns the
state unchanged and spawns no second write loop (the returned Bool is the
spawn indicator). -/
theorem c8_start_idempotent (s : Srv) (t c t' c' : Nat) :
    start_write (start_write s t c).1 t' c' = ((start_write s t c).1, false) := by
  by_cases h : s.writing_flag
  · simp [start_write, h]
  · simp [start_write, h]

/-- C1 (amended): during a run, `current_size_gb[0]` really is a derived
view — at every state the loop publishes (after each chunk write, and at
the partial state an aborted chunk leaves), it equals the size re-derived
from the directory, for every stop/failure schedule.  (`files_created[0]`
and the post-Clear values carry no such guarantee; see the
counterexample.) -/
theorem c1_size_rederived (target chunk_mb : Nat) (stopAt : Option Nat)
    (failAt : Option (Nat × Nat)) :
    ∀ (fuel : Nat) (st st' : RunSt),
      st.current_size = dirSizeBytes st.data_dir →
      writeTaskLoop target chunk_mb stopAt failAt fuel st = some st' →
      st'.current_size = dirSizeBytes st'.data_dir := by
  intro fuel
  induction fuel with
  | zero =>
    intro st st' _ h
    simp [writeTaskLoop] at h
  | succ f ih =>
    intro st st' hinv h
    by_cases hcond : (flagAt stopAt st.subs_written && decide (st.current_size < target)) = true
    · cases failAt with
      | none =>
        simp only [writeTaskLoop] at h
        rw [if_pos hcond] at h
        exact ih _ _ rfl h
      | some p =>
        obtain ⟨fc, fsub⟩ := p
        simp only [writeTaskLoop] at h
        rw [if_pos hcond] at h
        by_cases hfc : fc = st.files_created + 1
        · rw [if_pos hfc] at h
          injection h with h
          subst h
          dsimp only
          by_cases hz : fsub = 0
          · subst hz
            rw [if_pos rfl, hinv, dirSizeBytes_append]
            simp [dirSizeBytes, entrySize, bytesBeforeFail]
          · rw [if_neg hz]
        · rw [if_neg hfc] at h
          exact ih _ _ rfl h
    · simp only [writeTaskLoop] at h
      rw [if_neg hcond] at h
      injection h with h
      subst h
      exact hinv

/-- Witness for C1 (amended) on a run that exits at its first check: the
final reported size equals the derived directory size. -/
theorem c1_witness :
    writeTaskLoop 100 1 (some 0) none 1 ⟨0, 0, EntryList.nil, 0, false⟩
        = some ⟨0, 0, EntryList.nil, 0, false⟩
    ∧ (0 : Nat) = dirSizeBytes EntryList.nil := by
  have h : writeTaskLoop 100 1 (some 0) none 1 ⟨0, 0, EntryList.nil, 0, false⟩
      = some ⟨0, 0, EntryList.nil, 0, false⟩ := rfl
  exact ⟨h, c1_size_rederived 100 1 (some 0) none 1 _ _ rfl h⟩

/-- C1 (counterexample): the claim fails on `clear_data` — with one
5-byte file whose deletion fails, the status read after clearing reports
size 0 and 0 files created while the directory truly holds 5 bytes: the
reported counters are reset cells, not values re-derived from the
filesystem at read time. -/
theorem c1_counterexample :
    (status (clear_data ⟨false, 5, 1, 100, 1,
        EntryList.cons (Entry.file "data_chunk_1.dat" 5 false) EntryList.nil⟩)).size = 0
    ∧ dirSizeBytes (clear_data ⟨false, 5, 1, 100, 1,
        EntryList.cons (Entry.file "data_chunk_1.dat" 5 false) EntryList.nil⟩).data_dir = 5
    ∧ (0 : Nat) ≠ 5 := by decide

/-- C2 (amended): a Stop request becomes observable at the write loop's
next chunk-boundary check — the top of `write_task`'s `while` loop.  Once
the request is visible there (the completed sub-write count has reached
the stop point), the loop writes nothing further and exits with the state
unchanged, for every failure schedule. -/
theorem c2_stop_observed_at_chunk_boundary (target chunk_mb n : Nat)
    (failAt : Option (Nat × Nat)) (fuel : Nat) (st : RunSt)
    (hfuel : 0 < fuel) (hn : n ≤ st.subs_written) :
    writeTaskLoop target chunk_mb (some n) failAt fuel st = some st := by
  obtain ⟨f, rfl⟩ : ∃ f, fuel = f + 1 := ⟨fuel - 1, by omega⟩
  have hflag : flagAt (some n) st.subs_written = false := by
    simp only [flagAt, decide_eq_false_iff_not]
    omega
  simp [writeTaskLoop, hflag]

/-- Witness for C2 (amended): with the stop already requested before any
sub-write, the loop exits immediately, leaving the state untouched. -/
theorem c2_witness :
    writeTaskLoop 100 30 (some 0) none 5 ⟨3, 1, EntryList.nil, 0, false⟩
      = some ⟨3, 1, EntryList.nil, 0, false⟩ :=
  c2_stop_observed_at_chunk_boundary 100 30 0 none 5 _ (by decide) (by decide)

/-- C2 (counterexample): a 30 MB chunk consists of 3 sub-chunk writes;
with Stop requested right after the 1st sub-chunk write completes, the
claim allows at most the in-progress sub-chunk to complete (at most 2
sub-chunk writes in total), but the code finishes the whole chunk — all 3
sub-chunk writes — because `write_chunk` never reads the flag. -/
theorem c2_counterexample :
    (writeTaskLoop 1 30 (some 1) none 2 ⟨0, 0, EntryList.nil, 0, false⟩).map
        RunSt.subs_written = some 3
    ∧ (writeTaskLoop 1 30 (some 1) none 2 ⟨0, 0, EntryList.nil, 0, false⟩).map
        RunSt.files_created = some 1
    ∧ ¬ (3 ≤ 2) := by decide

/-- Helper: bounds on a run without stop and without I/O failure — the
loop only exits once the derived size has reached the target, and any
state other than the initial one is below target plus one chunk. -/
theorem writeTaskLoop_no_stop_bounds (target chunk_mb : Nat) :
    ∀ (fuel : Nat) (st st' : RunSt),
      st.current_size = dirSizeBytes st.data_dir →
      writeTaskLoop target chunk_mb none none fuel st = some st' →
      target ≤ st'.current_size
      ∧ (st' = st ∨ st'.current_size < target + chunk_mb * MB) := by
  intro fuel
  induction fuel with
  | zero =>
    intro st st' _ h
    simp [writeTaskLoop] at h
  | succ f ih =>
    intro st st' hinv h
    simp only [writeTaskLoop] at h
    by_cases hlt : st.current_size < target
    · rw [if_pos (by simp [flagAt, hlt])] at h
      obtain ⟨h1, h2⟩ := ih _ _ rfl h
      refine ⟨h1, Or.inr ?_⟩
      rcases h2 with rfl | h2
      · rw [successStep_size chunk_mb st _ hinv]
        omega
      · exact h2
    · rw [if_neg (by simp [flagAt, hlt])] at h
      injection h with h
      subst h
      exact ⟨Nat.le_of_not_lt hlt, Or.inl rfl⟩

/-- C3 (amended): if a run exits with no Stop request and no I/O error,
the final size is at least the target; and provided the directory was
below target when the run began (so at least one chunk is written), the
final size also exceeds the target by less than one chunk.  The
hypothesis `st.current_size = dirSizeBytes st.data_dir` is how every run
starts: `start_write` re-derives the size cell from the directory before
spawning the loop. -/
theorem c3_run_reaches_target (target chunk_mb fuel : Nat) (st st' : RunSt)
    (hinv : st.current_size = dirSizeBytes st.data_dir)
    (hrun : writeTaskLoop target chunk_mb none none fuel st = some st') :
    target ≤ st'.current_size
    ∧ (st.current_size < target → st'.current_size < target + chunk_mb * MB) := by
  obtain ⟨h1, h2⟩ := writeTaskLoop_no_stop_bounds target chunk_mb fuel st st' hinv hrun
  refine ⟨h1, fun hlt => ?_⟩
  rcases h2 with rfl | h2
  · omega
  · exact h2

/-- Witness for C3 (amended): target 1 500 000 bytes, 1 MB chunks,
starting from an empty directory; the run writes two chunks and exits at
2 097 152 bytes, which is at least the target and within one chunk above
it. -/
theorem c3_witness :
    writeTaskLoop 1500000 1 none none 3 ⟨0, 0, EntryList.nil, 0, false⟩
      = some ⟨2097152, 2,
          EntryList.cons (Entry.file "data_chunk_1.dat" 1048576 true)
            (EntryList.cons (Entry.file "data_chunk_2.dat" 1048576 true) EntryList.nil),
          2, false⟩
    ∧ 1500000 ≤ 2097152
    ∧ 2097152 < 1500000 + 1 * MB := by
  have h : writeTaskLoop 1500000 1 none none 3 ⟨0, 0, EntryList.nil, 0, false⟩
      = some ⟨2097152, 2,
          EntryList.cons (Entry.file "data_chunk_1.dat" 1048576 true)
            (EntryList.cons (Entry.file "data_chunk_2.dat" 1048576 true) EntryList.nil),
          2, false⟩ := by decide
  have hc := c3_run_reaches_target 1500000 1 3 _ _ rfl h
  exact ⟨h, hc.1, hc.2 (by decide)⟩

/-- C3 (counterexample): a run over a directory already holding 2 000 000
bytes with target 5 bytes and 1 MB chunks exits at its first check with no
Stop and no error, at 2 000 000 bytes — above the target by far more than
one chunk (5 + 2^20 = 1 048 581), refuting the overshoot bound as stated
for every run. -/
theorem c3_counterexample :
    2000000 = dirSizeBytes (EntryList.cons (Entry.file "leftover.dat" 2000000 true) EntryList.nil)
    ∧ (writeTaskLoop 5 1 none none 1
        ⟨2000000, 0, EntryList.cons (Entry.file "leftover.dat" 2000000 true) EntryList.nil,
          0, false⟩).map RunSt.current_size = some 2000000
    ∧ (writeTaskLoop 5 1 none none 1
        ⟨2000000, 0, EntryList.cons (Entry.file "leftover.dat" 2000000 true) EntryList.nil,
          0, false⟩).map RunSt.errored = some false
    ∧ ¬ (2000000 ≤ 5 + 1 * MB) := by decide

/-- C6: when an `IOError` is raised while writing a chunk, the run ends
at that very chunk with no retry: the loop exits (returning a final state
— the error is absorbed by the `except` branch, not propagated), the
failing chunk is the last file counted, and the directory ends with the
partially written file left in place after all previously written files. -/
theorem c6_error_aborts_run (target chunk_mb : Nat) (stopAt : Option Nat) (fc fsub : Nat) :
    ∀ (fuel : Nat) (st st' : RunSt),
      writeTaskLoop target chunk_mb stopAt (some (fc, fsub)) fuel st = some st' →
      st.errored = false → st'.errored = true →
      st'.files_created = fc
      ∧ ∃ mid, st'.data_dir = st.data_dir ++
          (mid ++ EntryList.cons
            (Entry.file (chunkFileName fc) (bytesBeforeFail chunk_mb fsub) true)
            EntryList.nil) := by
  intro fuel
  induction fuel with
  | zero =>
    intro st st' h _ _
    simp [writeTaskLoop] at h
  | succ f ih =>
    intro st st' h herr herr'
    simp only [writeTaskLoop] at h
    by_cases hcond : (flagAt stopAt st.subs_written && decide (st.current_size < target)) = true
    · rw [if_pos hcond] at h
      by_cases hfc : fc = st.files_created + 1
      · rw [if_pos hfc] at h
        injection h with h
        subst h
        subst hfc
        exact ⟨rfl, EntryList.nil, rfl⟩
      · rw [if_neg hfc] at h
        have herr1 : (successStep chunk_mb st (st.files_created + 1)).errored = false := herr
        obtain ⟨h1, mid, h2⟩ := ih _ _ h herr1 herr'
        simp only [successStep] at h2
        refine ⟨h1, EntryList.cons
          (Entry.file (chunkFileName (st.files_created + 1)) (chunk_mb * MB) true) mid, ?_⟩
        rw [h2, entryList_append_assoc]
        rfl
    · rw [if_neg hcond] at h
      injection h with h
      subst h
      rw [herr] at herr'
      exact absurd herr' (by simp)

/-- The state a failing first chunk leaves behind: one partial file, one
counted file, one completed sub-write, error flagged. -/
def c6FailRun : RunSt :=
  ⟨dirSizeBytes (EntryList.cons
      (Entry.file (chunkFileName 1) (bytesBeforeFail 30 1) true) EntryList.nil),
   1,
   EntryList.cons (Entry.file (chunkFileName 1) (bytesBeforeFail 30 1) true) EntryList.nil,
   1, true⟩

/-- Witness for C6: a run whose first chunk fails after one of its three
sub-writes exits immediately in the errored state, with the partial file
in place and counted. -/
theorem c6_witness :
    writeTaskLoop 100 30 none (some (1, 1)) 3 ⟨0, 0, EntryList.nil, 0, false⟩ = some c6FailRun
    ∧ c6FailRun.files_created = 1
    ∧ ∃ mid, c6FailRun.data_dir = EntryList.nil ++
        (mid ++ EntryList.cons
          (Entry.file (chunkFileName 1) (bytesBeforeFail 30 1) true) EntryList.nil) := by
  have h : writeTaskLoop 100 30 none (some (1, 1)) 3 ⟨0, 0, EntryList.nil, 0, false⟩
      = some c6FailRun := rfl
  have hc := c6_error_aborts_run 100 30 none 1 1 3 _ _ h rfl rfl
  exact ⟨h, hc.1, hc.2⟩

end DataWriter
